import Mathlib

/-!
Shallow embedding of the lost-and-found server (server.js together with the
database schema in db.js).  Database tables become lists of records, the
upload directory becomes a list of file names, and each HTTP handler becomes
a pure function from the database state (plus the request data) to the new
state and a response.  JavaScript number quirks that matter (parseInt
returning NaN, Math.max propagating NaN) are modelled with Option Int,
where none plays the role of NaN.
-/

/-- Error taxonomy of the HTTP layer: 400 validation, 404, 403, 400 unknown
action, 400 invalid claim status. -/
inductive ApiError where
  | validationError
  | notFound
  | forbidden
  | invalidAction
  | invalidStatus
deriving DecidableEq, Repr

/-- View of an Except value as a sum, to transport decidable equality. -/
def exceptToSum {ε α : Type} : Except ε α → ε ⊕ α
  | .error e => .inl e
  | .ok a => .inr a

instance {ε α : Type} [DecidableEq ε] [DecidableEq α] : DecidableEq (Except ε α) :=
  fun x y =>
    decidable_of_iff (exceptToSum x = exceptToSum y)
      (by cases x <;> cases y <;> simp [exceptToSum])

/-- Row of the items table (db.js schema). -/
structure Item where
  id : Nat
  title : String
  description : String
  category : String
  location_found : String
  date_found : String
  photo_filename : Option String
  status : String
  reporter_name : String
  reporter_email : String
  created_at : Nat
deriving DecidableEq, Repr

/-- Row of the claims table (db.js schema). -/
structure Claim where
  id : Nat
  item_id : Nat
  claimant_name : String
  claimant_email : String
  student_id : String
  message : String
  proof_filename : Option String
  status : String
  created_at : Nat
deriving DecidableEq, Repr

/-- Database plus upload-directory state.  nextItemId / nextClaimId model the
AUTOINCREMENT counters. -/
structure DB where
  items : List Item
  claims : List Claim
  files : List String
  nextItemId : Nat
  nextClaimId : Nat
deriving DecidableEq, Repr

/-- Multer stores an uploaded file before the route handler runs. -/
def storeFile (db : DB) (file : Option String) : DB :=
  match file with
  | none => db
  | some f => { db with files := f :: db.files }

/-- fs.unlink with an ignored error callback: best effort, a missing file is
not an error. -/
def deleteFile (db : DB) (file : Option String) : DB :=
  match file with
  | none => db
  | some f => { db with files := db.files.erase f }

/-- Strip ASCII whitespace from both ends of a char list (String.trim of the
runtime, restricted to the whitespace characters Lean models). -/
def trimChars (cs : List Char) : List Char :=
  ((cs.dropWhile Char.isWhitespace).reverse.dropWhile Char.isWhitespace).reverse

/-- server.js sanitizeString: falsy check, slice to at most max code units,
then trim.  Slicing is modelled on the char list. -/
def sanitizeString (s : String) (max : Nat) : String :=
  if s = "" then "" else String.mk (trimChars (s.data.take max))

/-- Value of a hexadecimal digit, or 99 for a non-digit. -/
def hexVal (c : Char) : Nat :=
  if '0' ≤ c ∧ c ≤ '9' then c.toNat - '0'.toNat
  else if 'a' ≤ c ∧ c ≤ 'f' then c.toNat - 'a'.toNat + 10
  else if 'A' ≤ c ∧ c ≤ 'F' then c.toNat - 'A'.toNat + 10
  else 99

/-- JavaScript parseInt with no radix argument: skip leading whitespace, an
optional sign, an optional 0x prefix switching to base 16, then the longest
run of digits of the base; none (NaN) when that run is empty. -/
def parseIntJS (s : String) : Option Int :=
  let cs := s.data.dropWhile Char.isWhitespace
  let sign : Int := match cs with
    | '-' :: _ => -1
    | _ => 1
  let cs1 := match cs with
    | '-' :: rest => rest
    | '+' :: rest => rest
    | _ => cs
  let radix : Nat := match cs1 with
    | '0' :: 'x' :: _ => 16
    | '0' :: 'X' :: _ => 16
    | _ => 10
  let cs2 := match cs1 with
    | '0' :: 'x' :: rest => rest
    | '0' :: 'X' :: rest => rest
    | _ => cs1
  let ds := cs2.takeWhile (fun c => hexVal c < radix)
  if ds.isEmpty then none
  else some (sign * Int.ofNat (ds.foldl (fun acc c => acc * radix + hexVal c) 0))

/-- Math.max with a constant first argument; NaN propagates. -/
def jsMaxI (a : Int) : Option Int → Option Int
  | none => none
  | some b => some (max a b)

/-- Math.min with a constant first argument; NaN propagates. -/
def jsMinI (a : Int) : Option Int → Option Int
  | none => none
  | some b => some (min a b)

/-- All suffixes of a char list, longest first. -/
def suffixesOf : List Char → List (List Char)
  | [] => [[]]
  | c :: cs => (c :: cs) :: suffixesOf cs

/-- SQL LIKE match, case-insensitive on ASCII letters, with wildcards
percent (any run of chars) and underscore (any one char).  Structural on
the pattern: percent consumes any suffix of the text. -/
def likeMatch : List Char → List Char → Bool
  | [], hs => hs.isEmpty
  | '%' :: ps, hs => (suffixesOf hs).any (fun t => likeMatch ps t)
  | '_' :: ps, hs =>
    match hs with
    | [] => false
    | _ :: t => likeMatch ps t
  | p :: ps, hs =>
    match hs with
    | [] => false
    | c :: t => (p.toLower == c.toLower) && likeMatch ps t

/-- column LIKE pattern on strings. -/
def sqlLike (pat hay : String) : Bool :=
  likeMatch pat.data hay.data

/-- Byte-wise text comparison of the storage engine, as less-or-equal. -/
def strLe (a b : String) : Bool :=
  a == b || a < b

/-- Query string of GET /api/items.  For q, category, location, date_from,
date_to and sort an absent parameter and the empty string behave alike, so
they are folded to a plain String; status and the two numeric parameters
need the absent case kept apart (none = parameter not supplied). -/
structure ListQuery where
  q : String := ""
  category : String := ""
  location : String := ""
  status : Option String := none
  date_from : String := ""
  date_to : String := ""
  sort : String := "newest"
  page : Option String := none
  limit : Option String := none
deriving DecidableEq, Repr

/-- Destructuring default: status is the string approved when absent. -/
def effStatus : Option String → String
  | none => "approved"
  | some s => s

/-- page before clamping: the numeric default 1 when absent, else parseInt of
the supplied string. -/
def pageVal : Option String → Option Int
  | none => some 1
  | some s => parseIntJS s

/-- limit before clamping: the numeric default 20 when absent, else parseInt
of the supplied string. -/
def limitVal : Option String → Option Int
  | none => some 20
  | some s => parseIntJS s

/-- const pageNum = Math.max(1, parseInt(page)). -/
def pageNum (qy : ListQuery) : Option Int :=
  jsMaxI 1 (pageVal qy.page)

/-- const perPage = Math.max(1, Math.min(50, parseInt(limit))). -/
def perPage (qy : ListQuery) : Option Int :=
  jsMaxI 1 (jsMinI 50 (limitVal qy.limit))

/-- The WHERE clause built from the truthy filters, AND composed.  Each
filter is added only when its parameter is a non-empty string, exactly as
the route pushes conditions into the where array. -/
def itemMatches (qy : ListQuery) (it : Item) : Bool :=
  (effStatus qy.status == "" || it.status == effStatus qy.status) &&
  (qy.q == "" || sqlLike ("%" ++ qy.q ++ "%") it.title ||
     sqlLike ("%" ++ qy.q ++ "%") it.description) &&
  (qy.category == "" || it.category == qy.category) &&
  (qy.location == "" || sqlLike ("%" ++ qy.location ++ "%") it.location_found) &&
  (qy.date_from == "" || strLe qy.date_from it.date_found) &&
  (qy.date_to == "" || strLe it.date_found qy.date_to)

/-- ORDER BY created_at DESC. -/
def createdDesc (a b : Item) : Prop := b.created_at ≤ a.created_at

/-- ORDER BY created_at ASC. -/
def createdAsc (a b : Item) : Prop := a.created_at ≤ b.created_at

instance : DecidableRel createdDesc := fun a b => Nat.decLe b.created_at a.created_at

instance : DecidableRel createdAsc := fun a b => Nat.decLe a.created_at b.created_at

instance : IsTotal Item createdDesc :=
  ⟨fun a b => Nat.le_total b.created_at a.created_at⟩

instance : IsTotal Item createdAsc :=
  ⟨fun a b => Nat.le_total a.created_at b.created_at⟩

instance : IsTrans Item createdDesc :=
  ⟨fun _ _ _ h1 h2 => Nat.le_trans h2 h1⟩

instance : IsTrans Item createdAsc :=
  ⟨fun _ _ _ h1 h2 => Nat.le_trans h1 h2⟩

/-- const orderSql = sort === oldest ? ASC : DESC. -/
def sortItems (qy : ListQuery) (xs : List Item) : List Item :=
  if qy.sort == "oldest" then xs.insertionSort createdAsc
  else xs.insertionSort createdDesc

/-- JSON body of the listing response.  page and limit are the possibly-NaN
JavaScript numbers; items is none when page or limit is NaN, since the SQL
bind of NaN is outside the model (no theorem depends on that case). -/
structure ListResp where
  page : Option Int
  limit : Option Int
  total : Nat
  items : Option (List Item)
deriving DecidableEq, Repr

/-- GET /api/items: count the rows matching the filters, then return the
requested page of the ordered matching rows. -/
def listItems (db : DB) (qy : ListQuery) : ListResp :=
  let pn := pageNum qy
  let pp := perPage qy
  let filtered := db.items.filter (itemMatches qy)
  let ordered := sortItems qy filtered
  let total := filtered.length
  let rows : Option (List Item) :=
    match pn, pp with
    | some p, some l => some (((ordered.drop ((p - 1) * l).toNat).take l.toNat))
    | _, _ => none
  { page := pn, limit := pp, total := total, items := rows }

/-- Multipart body of POST /api/items; an absent field sanitizes to the
empty string, so absent is folded to the empty string. -/
structure ItemBody where
  title : String := ""
  description : String := ""
  category : String := ""
  location_found : String := ""
  date_found : String := ""
  reporter_name : String := ""
  reporter_email : String := ""
deriving DecidableEq, Repr

/-- The row INSERTed by POST /api/items for a valid submission. -/
def newItemOf (db : DB) (b : ItemBody) (file : Option String) (now : Nat) : Item :=
  { id := db.nextItemId
    title := sanitizeString b.title 120
    description := sanitizeString b.description 2000
    category := sanitizeString b.category 60
    location_found := sanitizeString b.location_found 120
    date_found := sanitizeString b.date_found 10
    photo_filename := file
    status := "pending"
    reporter_name := sanitizeString b.reporter_name 80
    reporter_email := sanitizeString b.reporter_email 120
    created_at := now }

/-- POST /api/items.  The upload (when any) is stored by multer before the
handler runs; on validation failure the handler unlinks it and answers 400,
otherwise it INSERTs the row with status pending and answers the new id. -/
def submitItem (db : DB) (b : ItemBody) (file : Option String) (now : Nat) :
    DB × Except ApiError Nat :=
  let db1 := storeFile db file
  if sanitizeString b.title 120 == "" || sanitizeString b.description 2000 == "" ||
     sanitizeString b.category 60 == "" || sanitizeString b.location_found 120 == "" ||
     sanitizeString b.date_found 10 == "" || sanitizeString b.reporter_name 80 == "" ||
     sanitizeString b.reporter_email 120 == "" then
    (deleteFile db1 file, .error .validationError)
  else
    ({ db1 with items := db1.items ++ [newItemOf db1 b file now],
                nextItemId := db1.nextItemId + 1 },
     .ok db1.nextItemId)

/-- GET /api/items/:id — 404 when the id is unknown, 403 when the item is
not approved and the requester is not an authenticated admin. -/
def getItem (db : DB) (id : Nat) (admin : Bool) : Except ApiError Item :=
  match db.items.find? (fun it => it.id == id) with
  | none => .error .notFound
  | some it =>
    if it.status != "approved" && !admin then .error .forbidden
    else .ok it

/-- Multipart body of POST /api/items/:id/claim. -/
structure ClaimBody where
  claimant_name : String := ""
  claimant_email : String := ""
  student_id : String := ""
  message : String := ""
deriving DecidableEq, Repr

/-- The row INSERTed by POST /api/items/:id/claim for a valid submission. -/
def newClaimOf (db : DB) (item_id : Nat) (b : ClaimBody) (file : Option String)
    (now : Nat) : Claim :=
  { id := db.nextClaimId
    item_id := item_id
    claimant_name := sanitizeString b.claimant_name 80
    claimant_email := sanitizeString b.claimant_email 120
    student_id := sanitizeString b.student_id 40
    message := sanitizeString b.message 1500
    proof_filename := file
    status := "new"
    created_at := now }

/-- POST /api/items/:id/claim.  An absent item and an archived item are both
answered 404 (after unlinking any stored proof), field validation failures
are answered 400 likewise, and a valid claim is INSERTed with status new. -/
def submitClaim (db : DB) (item_id : Nat) (b : ClaimBody) (file : Option String)
    (now : Nat) : DB × Except ApiError Nat :=
  let db1 := storeFile db file
  match db1.items.find? (fun it => it.id == item_id) with
  | none => (deleteFile db1 file, .error .notFound)
  | some it =>
    if it.status == "archived" then (deleteFile db1 file, .error .notFound)
    else if sanitizeString b.claimant_name 80 == "" ||
            sanitizeString b.claimant_email 120 == "" ||
            sanitizeString b.message 1500 == "" then
      (deleteFile db1 file, .error .validationError)
    else
      ({ db1 with claims := db1.claims ++ [newClaimOf db1 item_id b file now],
                  nextClaimId := db1.nextClaimId + 1 },
       .ok db1.nextClaimId)

/-- UPDATE items SET ... WHERE id = ?. -/
def updateItems (db : DB) (id : Nat) (f : Item → Item) : DB :=
  { db with items := db.items.map (fun it => if it.id == id then f it else it) }

/-- JSON body of PATCH /api/admin/items/:id in the edit branch. -/
structure EditBody where
  title : String := ""
  description : String := ""
  category : String := ""
  location_found : String := ""
  date_found : String := ""
deriving DecidableEq, Repr

/-- The overwrite the edit branch performs on a row. -/
def applyEdit (b : EditBody) (it : Item) : Item :=
  { it with
    title := sanitizeString b.title 120
    description := sanitizeString b.description 2000
    category := sanitizeString b.category 60
    location_found := sanitizeString b.location_found 120
    date_found := sanitizeString b.date_found 10 }

/-- PATCH /api/admin/items/:id.  404 for an unknown id; approve, archive and
mark_claimed UPDATE the status unconditionally; edit overwrites the five
descriptive columns; anything else is answered 400 Unknown action.  The
response carries the re-SELECTed row. -/
def adminTransition (db : DB) (id : Nat) (action : String) (b : EditBody) :
    DB × Except ApiError (Option Item) :=
  match db.items.find? (fun it => it.id == id) with
  | none => (db, .error .notFound)
  | some _ =>
    if action == "approve" then
      let db' := updateItems db id (fun it => { it with status := "approved" })
      (db', .ok (db'.items.find? (fun it => it.id == id)))
    else if action == "archive" then
      let db' := updateItems db id (fun it => { it with status := "archived" })
      (db', .ok (db'.items.find? (fun it => it.id == id)))
    else if action == "mark_claimed" then
      let db' := updateItems db id (fun it => { it with status := "claimed" })
      (db', .ok (db'.items.find? (fun it => it.id == id)))
    else if action == "edit" then
      let db' := updateItems db id (applyEdit b)
      (db', .ok (db'.items.find? (fun it => it.id == id)))
    else
      (db, .error .invalidAction)

/-- Filesystem and row side effects of DELETE /api/admin/items/:id, in the
order the handler performs them. -/
inductive FsEv where
  | unlink (name : String)
  | deleteRow (id : Nat)
deriving DecidableEq, Repr

/-- The proof files of the claims of the item followed by its photo, in the
order the handler unlinks them. -/
def unlinkNames (db : DB) (id : Nat) (it : Item) : List String :=
  (db.claims.filter (fun c => c.item_id == id)).filterMap (fun c => c.proof_filename) ++
  (match it.photo_filename with
   | some f => [f]
   | none => [])

/-- DELETE /api/admin/items/:id.  404 when the id is unknown; otherwise the
claim proof files and the photo are unlinked best-effort, and only then the
row is DELETEd, which cascades the claim rows (foreign_keys is ON). -/
def deleteItem (db : DB) (id : Nat) : DB × List FsEv × Except ApiError Unit :=
  match db.items.find? (fun it => it.id == id) with
  | none => (db, [], .error .notFound)
  | some it =>
    let names := unlinkNames db id it
    ({ db with
        files := names.foldl (fun fs f => fs.erase f) db.files,
        items := db.items.filter (fun j => !(j.id == id)),
        claims := db.claims.filter (fun c => !(c.item_id == id)) },
     names.map FsEv.unlink ++ [FsEv.deleteRow id],
     .ok ())

/-- The five claim statuses PATCH /api/admin/claims/:id accepts. -/
def validClaimStatuses : List String :=
  ["new", "in_review", "approved", "rejected", "resolved"]

/-- PATCH /api/admin/claims/:id.  An unlisted status is answered 400; a
listed one is UPDATEd unconditionally; the response carries the re-SELECTed
row, which is absent (undefined in the JSON) when the id is unknown — the
handler never answers 404. -/
def adminSetClaimStatus (db : DB) (id : Nat) (status : String) :
    DB × Except ApiError (Option Claim) :=
  if !(validClaimStatuses.contains status) then (db, .error .invalidStatus)
  else
    let db' := { db with
      claims := db.claims.map (fun c => if c.id == id then { c with status := status } else c) }
    (db', .ok (db'.claims.find? (fun c => c.id == id)))

/-! Helper lemmas. -/

section Helpers

variable {α : Type}

/-- find? commutes with a map that does not disturb the predicate. -/
theorem find?_map_stable (p : α → Bool) (g : α → α) (hg : ∀ x, p (g x) = p x) :
    ∀ l : List α, (l.map g).find? p = (l.find? p).map g := by
  intro l
  induction l with
  | nil => rfl
  | cons x t ih =>
    by_cases hx : p x = true
    · rw [List.map_cons, List.find?_cons_of_pos t hx,
        List.find?_cons_of_pos (t.map g) ((hg x).trans hx), Option.map_some']
    · have hx' : ¬ p (g x) = true := by rw [hg x]; exact hx
      rw [List.map_cons, List.find?_cons_of_neg t hx, List.find?_cons_of_neg (t.map g) hx', ih]

/-- A pointwise update map is the identity when nothing satisfies the
predicate. -/
theorem map_update_of_none (p : α → Bool) (g : α → α) :
    ∀ l : List α, l.find? p = none →
      (l.map (fun x => if p x then g x else x)) = l := by
  intro l
  induction l with
  | nil => intro _; rfl
  | cons x t ih =>
    intro h
    rw [List.find?_eq_none] at h
    have hx : p x = false := by
      have := h x (List.mem_cons_self x t)
      simpa using this
    rw [List.map_cons, if_neg (by simp [hx]), ih]
    rw [List.find?_eq_none]
    intro y hy
    exact h y (List.mem_cons_of_mem x hy)

/-- A member of a page slice is a member of the full list. -/
theorem mem_of_mem_slice {x : α} {l : List α} {a b : Nat}
    (h : x ∈ (l.drop a).take b) : x ∈ l :=
  (List.drop_sublist a l).subset ((List.take_sublist b (l.drop a)).subset h)

/-- Gluing a length-a prefix with the next length-b chunk. -/
theorem take_chunk_glue (a b : Nat) :
    ∀ l : List α, l.take a ++ (l.drop a).take b = l.take (a + b) := by
  induction a with
  | zero => intro l; simp
  | succ a ih =>
    intro l
    cases l with
    | nil => simp
    | cons x t =>
      rw [List.take_succ_cons, List.drop_succ_cons, List.cons_append, ih t,
        Nat.succ_add, List.take_succ_cons]

/-- Concatenating the first n chunks of width L recovers the first n*L
elements. -/
theorem join_chunks (L : Nat) (l : List α) :
    ∀ n : Nat, ((List.range n).map (fun i => (l.drop (i * L)).take L)).flatten
      = l.take (n * L) := by
  intro n
  induction n with
  | zero => simp
  | succ n ih =>
    rw [List.range_succ, List.map_append, List.flatten_append, ih]
    simp only [List.map_cons, List.map_nil, List.flatten_cons, List.flatten_nil, List.append_nil]
    rw [take_chunk_glue, Nat.succ_mul]

/-- find? fails on the complement filter of its own predicate. -/
theorem find?_filter_not (p : α → Bool) (l : List α) :
    (l.filter (fun x => !(p x))).find? p = none := by
  rw [List.find?_eq_none]
  intro x hx
  have := (List.mem_filter.mp hx).2
  simp at this
  simp [this]

end Helpers

/-! Concrete fixtures used by witnesses and counterexamples. -/

/-- An approved item. -/
def itemApproved : Item :=
  { id := 1
    title := "Blue Backpack"
    description := "navy bag"
    category := "Bags"
    location_found := "Library"
    date_found := "2025-01-10"
    photo_filename := none
    status := "approved"
    reporter_name := "A"
    reporter_email := "a@x.com"
    created_at := 1 }

/-- A pending item. -/
def itemPending : Item :=
  { itemApproved with id := 2, title := "Red Umbrella", status := "pending", created_at := 2 }

/-- An archived item holding a photo. -/
def itemArchived : Item :=
  { itemApproved with
    id := 3
    title := "Gray Hoodie"
    status := "archived"
    photo_filename := some "ph.jpg"
    created_at := 3 }

/-- A claim against the archived item, holding a proof file. -/
def claimNew : Claim :=
  { id := 1
    item_id := 3
    claimant_name := "C"
    claimant_email := "c@x.com"
    student_id := "s1"
    message := "mine"
    proof_filename := some "pr.jpg"
    status := "new"
    created_at := 4 }

/-- The fixture database. -/
def dbFix : DB :=
  { items := [itemApproved, itemPending, itemArchived]
    claims := [claimNew]
    files := ["ph.jpg", "pr.jpg"]
    nextItemId := 4
    nextClaimId := 2 }

/-- C4: Get answers NotFound for an unknown id, Forbidden when the item is
not approved and the requester is not an admin, and the full record when the
item is approved or the requester is an admin. -/
theorem getItem_spec (db : DB) (id : Nat) (admin : Bool) :
    (db.items.find? (fun it => it.id == id) = none →
      getItem db id admin = .error .notFound) ∧
    (∀ it, db.items.find? (fun it => it.id == id) = some it →
      it.status ≠ "approved" → admin = false → getItem db id admin = .error .forbidden) ∧
    (∀ it, db.items.find? (fun it => it.id == id) = some it →
      (it.status = "approved" ∨ admin = true) → getItem db id admin = .ok it) := by
  refine ⟨fun h => by simp [getItem, h], fun it h hs ha => ?_, fun it h hor => ?_⟩
  · subst ha
    simp [getItem, h, hs]
  · rcases hor with hs | ha
    · simp [getItem, h, hs]
    · subst ha
      simp [getItem, h]

/-- C4 witness: in the fixture database the pending item is hidden from a
non-admin requester. -/
theorem getItem_spec_witness : getItem dbFix 2 false = .error .forbidden :=
  (getItem_spec dbFix 2 false).2.1 itemPending (by decide) (by decide) rfl

/-- Updating the rows keyed by an id keeps find? on that key, returning the
updated row. -/
theorem find?_update_key {α : Type} (key : α → Nat) (id : Nat) (f : α → α)
    (hf : ∀ x, key (f x) = key x) (l : List α) (it : α)
    (h : l.find? (fun j => key j == id) = some it) :
    (l.map (fun x => if key x == id then f x else x)).find? (fun j => key j == id)
      = some (f it) := by
  have hg : ∀ x : α, (key (if key x == id then f x else x) == id) = (key x == id) := by
    intro x
    by_cases hx : (key x == id) = true
    · simp [hx, hf]
    · simp [hx]
  rw [find?_map_stable _ _ hg l, h, Option.map_some']
  have hit : (key it == id) = true := by
    have hp := List.find?_some h
    simpa using hp
  rw [if_pos hit]

/-- C5 counterexample: the claim says no AdminTransition action changes the
status of an archived item, but action approve moves the archived fixture
item straight to approved. -/
theorem adminTransition_archived_cex :
    itemArchived.status = "archived" ∧
    ((adminTransition dbFix 3 "approve" {}).1.items.find? (fun j => j.id == 3)).map
        (fun j => j.status) = some "approved" := by
  decide


/-- C5 amended: every status moves to approved under approve, to archived
under archive, and to claimed under mark_claimed — the three UPDATEs are
unconditional, so archived is not terminal; edit keeps the status; an
unknown action fails with InvalidAction and changes nothing. -/
theorem adminTransition_spec (db : DB) (id : Nat) (b : EditBody) (it : Item)
    (h : db.items.find? (fun j => j.id == id) = some it) :
    ((adminTransition db id "approve" b).1.items.find? (fun j => j.id == id)
        = some { it with status := "approved" }) ∧
    ((adminTransition db id "archive" b).1.items.find? (fun j => j.id == id)
        = some { it with status := "archived" }) ∧
    ((adminTransition db id "mark_claimed" b).1.items.find? (fun j => j.id == id)
        = some { it with status := "claimed" }) ∧
    (((adminTransition db id "edit" b).1.items.find? (fun j => j.id == id)).map
        (fun j => j.status) = some it.status) ∧
    (∀ a, a ≠ "approve" → a ≠ "archive" → a ≠ "mark_claimed" → a ≠ "edit" →
      adminTransition db id a b = (db, .error .invalidAction)) := by
  refine ⟨?_, ?_, ?_, ?_, ?_⟩
  · have hred : adminTransition db id "approve" b
        = (updateItems db id (fun j => { j with status := "approved" }),
           .ok ((updateItems db id (fun j => { j with status := "approved" })).items.find?
                (fun j => j.id == id))) := by
      unfold adminTransition
      rw [h]
      rfl
    rw [hred]
    exact find?_update_key (fun j => j.id) id (fun j => { j with status := "approved" })
      (fun _ => rfl) db.items it h
  · have hred : adminTransition db id "archive" b
        = (updateItems db id (fun j => { j with status := "archived" }),
           .ok ((updateItems db id (fun j => { j with status := "archived" })).items.find?
                (fun j => j.id == id))) := by
      unfold adminTransition
      rw [h]
      rfl
    rw [hred]
    exact find?_update_key (fun j => j.id) id (fun j => { j with status := "archived" })
      (fun _ => rfl) db.items it h
  · have hred : adminTransition db id "mark_claimed" b
        = (updateItems db id (fun j => { j with status := "claimed" }),
           .ok ((updateItems db id (fun j => { j with status := "claimed" })).items.find?
                (fun j => j.id == id))) := by
      unfold adminTransition
      rw [h]
      rfl
    rw [hred]
    exact find?_update_key (fun j => j.id) id (fun j => { j with status := "claimed" })
      (fun _ => rfl) db.items it h
  · have hred : (adminTransition db id "edit" b).1.items
        = db.items.map (fun x => if x.id == id then applyEdit b x else x) := by
      unfold adminTransition
      rw [h]
      rfl
    have hfind : (db.items.map (fun x => if x.id == id then applyEdit b x else x)).find?
        (fun j => j.id == id) = some (applyEdit b it) :=
      find?_update_key (fun j : Item => j.id) id (applyEdit b) (fun _ => rfl) db.items it h
    rw [hred, hfind]
    rfl
  · intro a h1 h2 h3 h4
    simp [adminTransition, h, h1, h2, h3, h4]

/-- C5 witness: applying the amended theorem to the archived fixture item. -/
theorem adminTransition_spec_witness :
    (adminTransition dbFix 3 "approve" {}).1.items.find? (fun j => j.id == 3)
      = some { itemArchived with status := "approved" } :=
  (adminTransition_spec dbFix 3 {} itemArchived (by decide)).1

/-- C7 counterexample: for an id with no claim the handler does not fail
with NotFound — it succeeds with an empty re-SELECT and leaves the table
unchanged. -/
theorem adminSetClaimStatus_unknown_cex :
    dbFix.claims.find? (fun c => c.id == 7) = none ∧
    (adminSetClaimStatus dbFix 7 "approved").2 = .ok none ∧
    (adminSetClaimStatus dbFix 7 "approved").2 ≠ .error .notFound ∧
    (adminSetClaimStatus dbFix 7 "approved").1.claims = dbFix.claims := by
  decide

/-- C7 amended: an unlisted status fails with InvalidStatus leaving the
claim untouched; a listed status is accepted from any prior status and
stored verbatim; an unknown claim id with a listed status is a silent
no-op answering an empty claim, not NotFound. -/
theorem adminSetClaimStatus_spec (db : DB) (id : Nat) (st : String) :
    (validClaimStatuses.contains st = false →
      adminSetClaimStatus db id st = (db, .error .invalidStatus)) ∧
    (validClaimStatuses.contains st = true →
      ∀ c, db.claims.find? (fun c => c.id == id) = some c →
        (adminSetClaimStatus db id st).1.claims.find? (fun c => c.id == id)
            = some { c with status := st } ∧
        (adminSetClaimStatus db id st).2 = .ok (some { c with status := st })) ∧
    (validClaimStatuses.contains st = true →
      db.claims.find? (fun c => c.id == id) = none →
        (adminSetClaimStatus db id st).1.claims = db.claims ∧
        (adminSetClaimStatus db id st).2 = .ok none) := by
  refine ⟨fun hv => ?_, fun hv c hc => ?_, fun hv hc => ?_⟩
  · unfold adminSetClaimStatus
    rw [hv]
    rfl
  · have hfind : (db.claims.map (fun x => if x.id == id then { x with status := st } else x)).find?
        (fun c => c.id == id) = some { c with status := st } :=
      find?_update_key (fun c : Claim => c.id) id (fun c => { c with status := st })
        (fun _ => rfl) db.claims c hc
    have hred : (adminSetClaimStatus db id st).1.claims
        = db.claims.map (fun x => if x.id == id then { x with status := st } else x) := by
      unfold adminSetClaimStatus
      rw [hv]
      rfl
    have hred2 : (adminSetClaimStatus db id st).2
        = .ok ((db.claims.map (fun x => if x.id == id then { x with status := st } else x)).find?
            (fun c => c.id == id)) := by
      unfold adminSetClaimStatus
      rw [hv]
      rfl
    exact ⟨by rw [hred, hfind], by rw [hred2, hfind]⟩
  · have hmap : db.claims.map (fun x => if x.id == id then { x with status := st } else x)
        = db.claims :=
      map_update_of_none (fun c => c.id == id) (fun c => { c with status := st }) db.claims hc
    have hred : (adminSetClaimStatus db id st).1.claims
        = db.claims.map (fun x => if x.id == id then { x with status := st } else x) := by
      unfold adminSetClaimStatus
      rw [hv]
      rfl
    have hred2 : (adminSetClaimStatus db id st).2
        = .ok ((db.claims.map (fun x => if x.id == id then { x with status := st } else x)).find?
            (fun c => c.id == id)) := by
      unfold adminSetClaimStatus
      rw [hv]
      rfl
    exact ⟨by rw [hred, hmap], by rw [hred2, hmap, hc]⟩

/-- C7 witness: the fixture claim moves from new to resolved. -/
theorem adminSetClaimStatus_spec_witness :
    (adminSetClaimStatus dbFix 1 "resolved").1.claims.find? (fun c => c.id == 1)
      = some { claimNew with status := "resolved" } :=
  (((adminSetClaimStatus_spec dbFix 1 "resolved").2.1 (by decide)) claimNew (by decide)).1

/-- C8 counterexample: the claim says edit stores freshly validated
non-empty values, but an edit with an all-empty body succeeds and stores
empty strings over the previous title. -/
theorem adminEdit_novalidation_cex :
    itemApproved.title = "Blue Backpack" ∧
    ((adminTransition dbFix 1 "edit" {}).1.items.find? (fun j => j.id == 1)).map
        (fun j => j.title) = some "" ∧
    (adminTransition dbFix 1 "edit" {}).2 ≠ .error .validationError := by
  decide

/-- C8 amended: edit overwrites exactly the five descriptive fields with
trimmed, length-capped values — with no non-emptiness validation — and
leaves id, status, photo_filename, reporter_name, reporter_email and
created_at unchanged; rows with another id are untouched. -/
theorem adminEdit_spec (db : DB) (id : Nat) (b : EditBody) (it : Item)
    (h : db.items.find? (fun j => j.id == id) = some it) :
    (adminTransition db id "edit" b).1.items.find? (fun j => j.id == id)
        = some (applyEdit b it) ∧
    (adminTransition db id "edit" b).2 = .ok (some (applyEdit b it)) ∧
    (applyEdit b it).title = sanitizeString b.title 120 ∧
    (applyEdit b it).description = sanitizeString b.description 2000 ∧
    (applyEdit b it).category = sanitizeString b.category 60 ∧
    (applyEdit b it).location_found = sanitizeString b.location_found 120 ∧
    (applyEdit b it).date_found = sanitizeString b.date_found 10 ∧
    (applyEdit b it).id = it.id ∧
    (applyEdit b it).status = it.status ∧
    (applyEdit b it).photo_filename = it.photo_filename ∧
    (applyEdit b it).reporter_name = it.reporter_name ∧
    (applyEdit b it).reporter_email = it.reporter_email ∧
    (applyEdit b it).created_at = it.created_at ∧
    (∀ j, j ∈ db.items → (j.id == id) = false →
      j ∈ (adminTransition db id "edit" b).1.items) := by
  have hred : (adminTransition db id "edit" b).1.items
      = db.items.map (fun x => if x.id == id then applyEdit b x else x) := by
    unfold adminTransition
    rw [h]
    rfl
  have hred2 : (adminTransition db id "edit" b).2
      = .ok ((db.items.map (fun x => if x.id == id then applyEdit b x else x)).find?
          (fun j => j.id == id)) := by
    unfold adminTransition
    rw [h]
    rfl
  have hfind : (db.items.map (fun x => if x.id == id then applyEdit b x else x)).find?
      (fun j => j.id == id) = some (applyEdit b it) :=
    find?_update_key (fun j : Item => j.id) id (applyEdit b) (fun _ => rfl) db.items it h
  refine ⟨by rw [hred, hfind], by rw [hred2, hfind], rfl, rfl, rfl, rfl, rfl, rfl, rfl,
    rfl, rfl, rfl, rfl, fun j hj hne => ?_⟩
  rw [hred]
  have hnej : (if j.id == id then applyEdit b j else j) = j := by rw [hne]; rfl
  rw [← hnej]
  exact List.mem_map_of_mem _ hj

/-- C8 witness: editing the approved fixture item with a padded title. -/
theorem adminEdit_spec_witness :
    (adminTransition dbFix 1 "edit"
        { title := "  Found Bag  ", description := "checked", category := "Bags", location_found := "Gym", date_found := "2025-02-02" }).1.items.find?
        (fun j => j.id == 1)
      = some (applyEdit
        { title := "  Found Bag  ", description := "checked", category := "Bags", location_found := "Gym", date_found := "2025-02-02" } itemApproved) :=
  (adminEdit_spec dbFix 1
    { title := "  Found Bag  ", description := "checked", category := "Bags", location_found := "Gym", date_found := "2025-02-02" } itemApproved (by decide)).1

/-- C3: deleting an unknown id fails with NotFound changing nothing; for an
existing item every claim proof file and the photo have their unlink
attempted before the single row deletion event, the item row and all claim
rows referencing it are gone, cleanup cannot fail, and a subsequent Get
answers NotFound. -/
theorem deleteItem_spec (db : DB) (id : Nat) :
    (db.items.find? (fun j => j.id == id) = none →
      deleteItem db id = (db, [], .error .notFound)) ∧
    (∀ it, db.items.find? (fun j => j.id == id) = some it →
      (deleteItem db id).2.2 = .ok () ∧
      (∀ c, c ∈ db.claims → (c.item_id == id) = true → ∀ f, c.proof_filename = some f →
        FsEv.unlink f ∈ (deleteItem db id).2.1) ∧
      (∀ f, it.photo_filename = some f → FsEv.unlink f ∈ (deleteItem db id).2.1) ∧
      (∃ pre, (deleteItem db id).2.1 = pre ++ [FsEv.deleteRow id] ∧
        ∀ e ∈ pre, ∃ f, e = FsEv.unlink f) ∧
      (∀ c, c ∈ (deleteItem db id).1.claims ↔ c ∈ db.claims ∧ (c.item_id == id) = false) ∧
      (∀ j, j ∈ (deleteItem db id).1.items ↔ j ∈ db.items ∧ (j.id == id) = false) ∧
      (∀ admin, getItem (deleteItem db id).1 id admin = .error .notFound)) := by
  constructor
  · intro h
    unfold deleteItem
    rw [h]
  · intro it h
    have hev : (deleteItem db id).2.1
        = (unlinkNames db id it).map FsEv.unlink ++ [FsEv.deleteRow id] := by
      unfold deleteItem
      rw [h]
    have hcl : (deleteItem db id).1.claims
        = db.claims.filter (fun c => !(c.item_id == id)) := by
      unfold deleteItem
      rw [h]
    have hit : (deleteItem db id).1.items
        = db.items.filter (fun j => !(j.id == id)) := by
      unfold deleteItem
      rw [h]
    have hok : (deleteItem db id).2.2 = .ok () := by
      unfold deleteItem
      rw [h]
    refine ⟨hok, ?_, ?_, ?_, ?_, ?_, ?_⟩
    · intro c hc hcid f hf
      rw [hev]
      apply List.mem_append_left
      apply List.mem_map_of_mem
      unfold unlinkNames
      apply List.mem_append_left
      exact List.mem_filterMap.mpr ⟨c, List.mem_filter.mpr ⟨hc, hcid⟩, hf⟩
    · intro f hf
      rw [hev]
      apply List.mem_append_left
      apply List.mem_map_of_mem
      unfold unlinkNames
      apply List.mem_append_right
      rw [hf]
      exact List.mem_singleton.mpr rfl
    · refine ⟨(unlinkNames db id it).map FsEv.unlink, hev, fun e he => ?_⟩
      rcases List.mem_map.mp he with ⟨f, _, rfl⟩
      exact ⟨f, rfl⟩
    · intro c
      rw [hcl]
      simp [List.mem_filter]
    · intro j
      rw [hit]
      simp [List.mem_filter]
    · intro admin
      have hfn : ((deleteItem db id).1.items).find? (fun j => j.id == id) = none := by
        rw [hit]
        exact find?_filter_not _ _
      simp [getItem, hfn]

/-- C3 witness: deleting the archived fixture item unlinks the claim proof
and the photo, and the item afterwards answers NotFound even to an admin. -/
theorem deleteItem_spec_witness :
    (deleteItem dbFix 3).2.2 = .ok () ∧
    FsEv.unlink "pr.jpg" ∈ (deleteItem dbFix 3).2.1 ∧
    FsEv.unlink "ph.jpg" ∈ (deleteItem dbFix 3).2.1 ∧
    getItem (deleteItem dbFix 3).1 3 true = .error .notFound := by
  obtain ⟨hok, hpr, hph, _, _, _, hget⟩ := (deleteItem_spec dbFix 3).2 itemArchived (by decide)
  exact ⟨hok, hpr claimNew (by decide) (by decide) "pr.jpg" rfl, hph "ph.jpg" rfl, hget true⟩

/-- Storing an upload leaves every table untouched. -/
theorem storeFile_items (db : DB) (file : Option String) :
    (storeFile db file).items = db.items := by
  cases file <;> rfl

/-- Storing an upload leaves the claims table untouched. -/
theorem storeFile_claims (db : DB) (file : Option String) :
    (storeFile db file).claims = db.claims := by
  cases file <;> rfl

/-- Storing an upload keeps the item id counter. -/
theorem storeFile_nextItemId (db : DB) (file : Option String) :
    (storeFile db file).nextItemId = db.nextItemId := by
  cases file <;> rfl

/-- Storing an upload keeps the claim id counter. -/
theorem storeFile_nextClaimId (db : DB) (file : Option String) :
    (storeFile db file).nextClaimId = db.nextClaimId := by
  cases file <;> rfl

/-- Unlinking a just-stored upload restores the upload directory. -/
theorem store_delete_files (db : DB) (file : Option String) :
    (deleteFile (storeFile db file) file).files = db.files := by
  cases file with
  | none => rfl
  | some f => simp [storeFile, deleteFile]

/-- The compensating unlink touches no table. -/
theorem store_delete_items (db : DB) (file : Option String) :
    (deleteFile (storeFile db file) file).items = db.items := by
  cases file <;> rfl

/-- The compensating unlink touches no claims. -/
theorem store_delete_claims (db : DB) (file : Option String) :
    (deleteFile (storeFile db file) file).claims = db.claims := by
  cases file <;> rfl

/-- C6: a claim against an absent or archived item fails with NotFound
whatever the fields, inserting nothing and unlinking any stored proof;
against a live item with non-empty sanitized name, email and message,
exactly one claim row with status new is appended. -/
theorem submitClaim_spec (db : DB) (item_id : Nat) (b : ClaimBody)
    (file : Option String) (now : Nat) :
    ((db.items.find? (fun it => it.id == item_id) = none ∨
      (∃ it, db.items.find? (fun it => it.id == item_id) = some it ∧
        it.status = "archived")) →
      (submitClaim db item_id b file now).2 = .error .notFound ∧
      (submitClaim db item_id b file now).1.claims = db.claims ∧
      (submitClaim db item_id b file now).1.items = db.items ∧
      (submitClaim db item_id b file now).1.files = db.files) ∧
    (∀ it, db.items.find? (fun it => it.id == item_id) = some it →
      it.status ≠ "archived" →
      sanitizeString b.claimant_name 80 ≠ "" →
      sanitizeString b.claimant_email 120 ≠ "" →
      sanitizeString b.message 1500 ≠ "" →
      (submitClaim db item_id b file now).1.claims
          = db.claims ++ [newClaimOf (storeFile db file) item_id b file now] ∧
      (newClaimOf (storeFile db file) item_id b file now).status = "new" ∧
      (submitClaim db item_id b file now).2 = .ok db.nextClaimId) := by
  constructor
  · intro habs
    have hred : submitClaim db item_id b file now
        = (deleteFile (storeFile db file) file, .error .notFound) := by
      unfold submitClaim
      dsimp only
      rw [storeFile_items]
      rcases habs with h | ⟨it, h, hst⟩
      · rw [h]
      · rw [h]
        dsimp only
        have hb : (it.status == "archived") = true := by
          rw [hst]
          decide
        rw [hb]
        rfl
    rw [hred]
    exact ⟨rfl, store_delete_claims db file, store_delete_items db file,
      store_delete_files db file⟩
  · intro it h hst hv1 hv2 hv3
    have hb : (it.status == "archived") = false := beq_eq_false_iff_ne.mpr hst
    have e1 : (sanitizeString b.claimant_name 80 == "") = false := beq_eq_false_iff_ne.mpr hv1
    have e2 : (sanitizeString b.claimant_email 120 == "") = false := beq_eq_false_iff_ne.mpr hv2
    have e3 : (sanitizeString b.message 1500 == "") = false := beq_eq_false_iff_ne.mpr hv3
    have hred : submitClaim db item_id b file now
        = ({ storeFile db file with
              claims := (storeFile db file).claims
                ++ [newClaimOf (storeFile db file) item_id b file now],
              nextClaimId := (storeFile db file).nextClaimId + 1 },
           .ok (storeFile db file).nextClaimId) := by
      unfold submitClaim
      dsimp only
      rw [storeFile_items, h]
      dsimp only
      rw [hb, e1, e2, e3]
      rfl
    rw [hred]
    exact ⟨by rw [storeFile_claims], rfl, by rw [storeFile_nextClaimId]⟩

/-- C6 witness: a claim with perfectly valid fields against the archived
fixture item is answered NotFound and its stored proof is unlinked. -/
theorem submitClaim_spec_witness :
    (submitClaim dbFix 3
        { claimant_name := "N", claimant_email := "n@x.com", message := "mine" }
        (some "newproof.jpg") 9).2 = .error .notFound ∧
    (submitClaim dbFix 3
        { claimant_name := "N", claimant_email := "n@x.com", message := "mine" }
        (some "newproof.jpg") 9).1.files = dbFix.files := by
  obtain ⟨h1, _, _, h4⟩ := (submitClaim_spec dbFix 3
    { claimant_name := "N", claimant_email := "n@x.com", message := "mine" }
    (some "newproof.jpg") 9).1 (Or.inr ⟨itemArchived, by decide, rfl⟩)
  exact ⟨h1, h4⟩

/-- Ordering the rows does not change which rows there are. -/
theorem mem_sortItems (qy : ListQuery) (l : List Item) (x : Item) :
    x ∈ sortItems qy l ↔ x ∈ l := by
  unfold sortItems
  split
  · exact (List.perm_insertionSort createdAsc l).mem_iff
  · exact (List.perm_insertionSort createdDesc l).mem_iff

/-- C1: a submission whose seven sanitized fields are all non-empty appends
exactly one row with status pending which a default public listing (no
status parameter) never shows; a submission with any empty sanitized field
fails with ValidationError, inserts nothing, and the stored photo is
unlinked again. -/
theorem submitItem_spec (db : DB) (b : ItemBody) (file : Option String) (now : Nat) :
    ((sanitizeString b.title 120 ≠ "" ∧ sanitizeString b.description 2000 ≠ "" ∧
      sanitizeString b.category 60 ≠ "" ∧ sanitizeString b.location_found 120 ≠ "" ∧
      sanitizeString b.date_found 10 ≠ "" ∧ sanitizeString b.reporter_name 80 ≠ "" ∧
      sanitizeString b.reporter_email 120 ≠ "") →
      (submitItem db b file now).2 = .ok db.nextItemId ∧
      (submitItem db b file now).1.items
          = db.items ++ [newItemOf (storeFile db file) b file now] ∧
      (newItemOf (storeFile db file) b file now).status = "pending" ∧
      (∀ qy : ListQuery, qy.status = none → ∀ xs,
        (listItems (submitItem db b file now).1 qy).items = some xs →
          newItemOf (storeFile db file) b file now ∉ xs)) ∧
    ((sanitizeString b.title 120 = "" ∨ sanitizeString b.description 2000 = "" ∨
      sanitizeString b.category 60 = "" ∨ sanitizeString b.location_found 120 = "" ∨
      sanitizeString b.date_found 10 = "" ∨ sanitizeString b.reporter_name 80 = "" ∨
      sanitizeString b.reporter_email 120 = "") →
      (submitItem db b file now).2 = .error .validationError ∧
      (submitItem db b file now).1.items = db.items ∧
      (submitItem db b file now).1.claims = db.claims ∧
      (submitItem db b file now).1.files = db.files) := by
  constructor
  · rintro ⟨h1, h2, h3, h4, h5, h6, h7⟩
    have e1 := beq_eq_false_iff_ne.mpr h1
    have e2 := beq_eq_false_iff_ne.mpr h2
    have e3 := beq_eq_false_iff_ne.mpr h3
    have e4 := beq_eq_false_iff_ne.mpr h4
    have e5 := beq_eq_false_iff_ne.mpr h5
    have e6 := beq_eq_false_iff_ne.mpr h6
    have e7 := beq_eq_false_iff_ne.mpr h7
    have hred : submitItem db b file now
        = ({ storeFile db file with
              items := (storeFile db file).items
                ++ [newItemOf (storeFile db file) b file now],
              nextItemId := (storeFile db file).nextItemId + 1 },
           .ok (storeFile db file).nextItemId) := by
      unfold submitItem
      dsimp only
      rw [e1, e2, e3, e4, e5, e6, e7]
      rfl
    refine ⟨by rw [hred, storeFile_nextItemId], by rw [hred]; rw [storeFile_items], rfl,
      fun qy hqy xs hxs hmem => ?_⟩
    have hmatch : itemMatches qy (newItemOf (storeFile db file) b file now) = false := by
      unfold itemMatches
      rw [hqy]
      simp [effStatus, newItemOf]
    unfold listItems at hxs
    dsimp only at hxs
    rcases hpn : pageNum qy with _ | p
    · rw [hpn] at hxs
      cases hpp : perPage qy <;> rw [hpp] at hxs <;> simp at hxs
    · rcases hpp : perPage qy with _ | l
      · rw [hpn, hpp] at hxs
        simp at hxs
      · rw [hpn, hpp] at hxs
        simp only [Option.some.injEq] at hxs
        subst hxs
        have hmem2 := mem_of_mem_slice hmem
        have hmem3 := (mem_sortItems qy _ _).mp hmem2
        have := (List.mem_filter.mp hmem3).2
        rw [hmatch] at this
        exact Bool.false_ne_true this
  · intro hbad
    have hcond : (sanitizeString b.title 120 == "" || sanitizeString b.description 2000 == "" ||
        sanitizeString b.category 60 == "" || sanitizeString b.location_found 120 == "" ||
        sanitizeString b.date_found 10 == "" || sanitizeString b.reporter_name 80 == "" ||
        sanitizeString b.reporter_email 120 == "") = true := by
      rcases hbad with h | h | h | h | h | h | h <;> simp [h]
    have hred : submitItem db b file now
        = (deleteFile (storeFile db file) file, .error .validationError) := by
      unfold submitItem
      dsimp only
      rw [hcond]
      rfl
    rw [hred]
    exact ⟨rfl, store_delete_items db file, store_delete_claims db file,
      store_delete_files db file⟩

/-- A fully valid submission body. -/
def bodyOK : ItemBody :=
  { title := "Black Wallet"
    description := "leather, two cards inside"
    category := "Wallets"
    location_found := "Cafeteria"
    date_found := "2025-03-01"
    reporter_name := "R"
    reporter_email := "r@x.com" }

/-- C1 witness: submitting the valid fixture body creates row 4 with status
pending and the default public listing afterwards does not show it. -/
theorem submitItem_spec_witness :
    (submitItem dbFix bodyOK none 9).2 = .ok 4 ∧
    (newItemOf (storeFile dbFix none) bodyOK none 9).status = "pending" ∧
    (newItemOf (storeFile dbFix none) bodyOK none 9)
      ∉ ((listItems (submitItem dbFix bodyOK none 9).1 {}).items.getD []) := by
  obtain ⟨ha, _, hc, hd⟩ := (submitItem_spec dbFix bodyOK none 9).1 (by decide)
  refine ⟨ha, hc, ?_⟩
  have hitems : (listItems (submitItem dbFix bodyOK none 9).1 {}).items
      = some ((listItems (submitItem dbFix bodyOK none 9).1 {}).items.getD []) := by
    decide
  exact hd {} rfl _ hitems

/-- C10: when the public listing is called with status explicitly the empty
string, no status restriction is applied at all: matching is independent of
the status column, every stored row matching the remaining filters is
counted in total, and every listed row is a stored matching row — so
pending, claimed and archived items flow through the public endpoint. -/
theorem listItems_emptyStatus (db : DB) (qy : ListQuery) (h : qy.status = some "") :
    (∀ it s, itemMatches qy it = itemMatches qy { it with status := s }) ∧
    (listItems db qy).total = (db.items.filter (itemMatches qy)).length ∧
    (∀ it, it ∈ db.items → itemMatches qy it = true →
      it ∈ db.items.filter (itemMatches qy)) ∧
    (∀ xs, (listItems db qy).items = some xs → ∀ it, it ∈ xs →
      it ∈ db.items ∧ itemMatches qy it = true) := by
  refine ⟨fun it s => ?_, rfl, fun it hm hmt => List.mem_filter.mpr ⟨hm, hmt⟩,
    fun xs hxs it hmem => ?_⟩
  · unfold itemMatches
    rw [h]
    simp [effStatus]
  · unfold listItems at hxs
    dsimp only at hxs
    rcases hpn : pageNum qy with _ | p
    · rw [hpn] at hxs
      cases hpp : perPage qy <;> rw [hpp] at hxs <;> simp at hxs
    · rcases hpp : perPage qy with _ | l
      · rw [hpn, hpp] at hxs
        simp at hxs
      · rw [hpn, hpp] at hxs
        simp only [Option.some.injEq] at hxs
        subst hxs
        have hmem2 := (mem_sortItems qy _ _).mp (mem_of_mem_slice hmem)
        exact List.mem_filter.mp hmem2

/-- C10 witness: with an explicitly empty status the archived fixture item
matches independently of its status and is counted by the public listing. -/
theorem listItems_emptyStatus_witness :
    itemMatches { status := some "" } itemArchived
      = itemMatches { status := some "" } { itemArchived with status := "pending" } ∧
    itemArchived ∈ dbFix.items.filter (itemMatches { status := some "" }) := by
  obtain ⟨h1, _, h3, _⟩ := listItems_emptyStatus dbFix { status := some "" } rfl
  exact ⟨h1 itemArchived "pending", h3 itemArchived (by decide) (by decide)⟩

/-- C9 counterexample: the claim promises an integer page of at least 1 for
every supplied value, but a non-numeric page string makes parseInt return
NaN, Math.max propagates it, and the response page is NaN (null in JSON),
not an integer. -/
theorem listItems_nan_page_cex :
    (listItems dbFix { page := some "abc" }).page = none ∧
    (listItems dbFix { page := some "abc" }).items = none := by
  decide

/-- C9 amended: when the supplied page and limit parse to integers (with
absent values defaulting to 1 and 20), the response page is max(1, page),
at least 1, the response limit is clamped into 1..50, and the returned
slice is the window of at most limit rows starting at offset
(page-1)*limit; a non-numeric parameter instead propagates NaN. -/
theorem listPaging_params (db : DB) (qy : ListQuery) (p l : Int)
    (hp : pageVal qy.page = some p) (hl : limitVal qy.limit = some l) :
    (listItems db qy).page = some (max 1 p) ∧
    (1 : Int) ≤ max 1 p ∧
    (listItems db qy).limit = some (max 1 (min 50 l)) ∧
    (1 : Int) ≤ max 1 (min 50 l) ∧ max 1 (min 50 l) ≤ 50 ∧
    (listItems db qy).items = some
      (((sortItems qy (db.items.filter (itemMatches qy))).drop
          ((max 1 p - 1) * max 1 (min 50 l)).toNat).take (max 1 (min 50 l)).toNat) ∧
    (∀ xs, (listItems db qy).items = some xs →
      xs.length ≤ (max 1 (min 50 l)).toNat) := by
  have hpn : pageNum qy = some (max 1 p) := by
    unfold pageNum
    rw [hp]
    rfl
  have hpp : perPage qy = some (max 1 (min 50 l)) := by
    unfold perPage
    rw [hl]
    rfl
  have hitems : (listItems db qy).items = some
      (((sortItems qy (db.items.filter (itemMatches qy))).drop
          ((max 1 p - 1) * max 1 (min 50 l)).toNat).take (max 1 (min 50 l)).toNat) := by
    unfold listItems
    dsimp only
    rw [hpn, hpp]
  refine ⟨hpn, le_max_left 1 p, hpp, le_max_left _ _,
    max_le (by norm_num) (min_le_left 50 l), hitems, fun xs hxs => ?_⟩
  rw [hitems] at hxs
  simp only [Option.some.injEq] at hxs
  subst hxs
  rw [List.length_take]
  exact min_le_left _ _

/-- C9 witness: page 0 is clamped to 1 and limit 999 is clamped to 50. -/
theorem listPaging_params_witness :
    (listItems dbFix { page := some "0", limit := some "999" }).page = some (max 1 0) ∧
    (listItems dbFix { page := some "0", limit := some "999" }).limit
      = some (max 1 (min 50 999)) := by
  obtain ⟨h1, _, h3, _⟩ :=
    listPaging_params dbFix { page := some "0", limit := some "999" } 0 999
      (by decide) (by decide)
  exact ⟨h1, h3⟩

/-- The slice a well-formed page request returns: page i+1 of width L
starts at offset i*L of the ordered matching rows. -/
theorem listItems_page_slice (db : DB) (qy : ListQuery) (i L : Nat)
    (hpn : pageNum qy = some ((i + 1 : Nat) : Int))
    (hpp : perPage qy = some ((L : Nat) : Int)) :
    (listItems db qy).items = some
      (((sortItems qy (db.items.filter (itemMatches qy))).drop (i * L)).take L) := by
  unfold listItems
  dsimp only
  rw [hpn, hpp]
  dsimp only
  have e1 : ((((i + 1 : Nat) : Int)) - 1) * ((L : Nat) : Int) = ((i * L : Nat) : Int) := by
    push_cast
    ring
  rw [e1, Int.toNat_ofNat, Int.toNat_ofNat]

/-- C2: the listing total is the number of rows matching the AND of the
filters ignoring pagination, each page i (1-based) of width L is the
window at offset (i-1)*L of the ordered matching rows, concatenating the
pages 1..n (enough pages to cover the total) yields exactly the ordered
matching rows — a permutation of the matching rows, so no duplicates and
no gaps — sorted ascending by creation time for sort=oldest and descending
otherwise (sort=newest is the default). -/
theorem listItems_pagination (db : DB) (qy : ListQuery) (L n : Nat)
    (hL : perPage qy = some ((L : Nat) : Int))
    (pg : Nat → String)
    (hpg : ∀ i, i < n → parseIntJS (pg i) = some ((i + 1 : Nat) : Int))
    (hn : (db.items.filter (itemMatches qy)).length ≤ n * L) :
    (listItems db qy).total = (db.items.filter (itemMatches qy)).length ∧
    (∀ i, i < n →
      (listItems db { qy with page := some (pg i) }).items = some
        (((sortItems qy (db.items.filter (itemMatches qy))).drop (i * L)).take L)) ∧
    (((List.range n).map (fun i =>
        ((listItems db { qy with page := some (pg i) }).items).getD [])).flatten
      = sortItems qy (db.items.filter (itemMatches qy))) ∧
    ((sortItems qy (db.items.filter (itemMatches qy))).Perm
        (db.items.filter (itemMatches qy))) ∧
    (qy.sort = "oldest" →
      List.Sorted createdAsc (sortItems qy (db.items.filter (itemMatches qy)))) ∧
    (qy.sort ≠ "oldest" →
      List.Sorted createdDesc (sortItems qy (db.items.filter (itemMatches qy)))) := by
  have hperm : (sortItems qy (db.items.filter (itemMatches qy))).Perm
      (db.items.filter (itemMatches qy)) := by
    unfold sortItems
    split
    · exact List.perm_insertionSort createdAsc _
    · exact List.perm_insertionSort createdDesc _
  have hpage : ∀ i, i < n →
      (listItems db { qy with page := some (pg i) }).items = some
        (((sortItems qy (db.items.filter (itemMatches qy))).drop (i * L)).take L) := by
    intro i hi
    have hone : (1 : Int) ≤ ((i + 1 : Nat) : Int) := by omega
    have hpn : pageNum { qy with page := some (pg i) } = some ((i + 1 : Nat) : Int) := by
      have hstep : pageNum { qy with page := some (pg i) }
          = some (max 1 ((i + 1 : Nat) : Int)) := by
        unfold pageNum pageVal
        dsimp only
        rw [hpg i hi]
        rfl
      rw [hstep, max_eq_right hone]
    exact listItems_page_slice db { qy with page := some (pg i) } i L hpn hL
  refine ⟨rfl, hpage, ?_, hperm, fun hs => ?_, fun hs => ?_⟩
  · have hmapeq : (List.range n).map (fun i =>
        ((listItems db { qy with page := some (pg i) }).items).getD [])
        = (List.range n).map (fun i =>
            (((sortItems qy (db.items.filter (itemMatches qy))).drop (i * L)).take L)) := by
      apply List.map_congr_left
      intro i hi
      rw [hpage i (List.mem_range.mp hi)]
      rfl
    rw [hmapeq, join_chunks]
    apply List.take_of_length_le
    rw [hperm.length_eq]
    exact hn
  · unfold sortItems
    have hb : (qy.sort == "oldest") = true := by
      rw [hs]
      decide
    rw [hb, if_pos rfl]
    exact List.sorted_insertionSort createdAsc _
  · unfold sortItems
    have hb : (qy.sort == "oldest") = false := beq_eq_false_iff_ne.mpr hs
    rw [hb, if_neg Bool.false_ne_true]
    exact List.sorted_insertionSort createdDesc _

/-- Fixture query: empty status filter, two rows per page. -/
def qyW : ListQuery := { status := some "", limit := some "2" }

/-- Fixture page labels: the decimal strings 1 and 2. -/
def pgW : Nat → String := fun i => if i = 0 then "1" else "2"

/-- C2 witness: with three matching fixture rows and width 2, page 1 and
page 2 are the two consecutive windows of the ordered rows and the total
counts all matching rows. -/
theorem listItems_pagination_witness :
    (listItems dbFix qyW).total = (dbFix.items.filter (itemMatches qyW)).length ∧
    (listItems dbFix { qyW with page := some (pgW 0) }).items = some
      (((sortItems qyW (dbFix.items.filter (itemMatches qyW))).drop (0 * 2)).take 2) ∧
    (listItems dbFix { qyW with page := some (pgW 1) }).items = some
      (((sortItems qyW (dbFix.items.filter (itemMatches qyW))).drop (1 * 2)).take 2) := by
  obtain ⟨h1, h2, _, _, _, _⟩ :=
    listItems_pagination dbFix qyW 2 2 (by decide) pgW (by decide) (by decide)
  exact ⟨h1, h2 0 (by decide), h2 1 (by decide)⟩
